import Mathlib

/-! # ecmake `sh` module: argument decoder and invocation dispatcher

A shallow embedding of `main.go`: `getCmdAndArgs` (the argument decoder),
`Module.GetMethods` (the method registry) and `Module.Invoke` (the dispatcher).

* Go values of type `interface{}` are the inductive `Value`.
* A Go run-time panic (failed unchecked type assertion, index or slice bound
  out of range) is an explicit `Panic` result: functions that can panic return
  `Except Panic _`.
* The execution primitives `Run`, `RunV`, `RunWith`, `RunWithV`, `Output`,
  `OutputWith`, `Exec` and `ExitStatus` are methods of `Module` declared outside
  `main.go`; they are the fields of the structure `Module`.  The effectful ones
  act on an explicit world state that is threaded through `Invoke`.
-/

namespace Sh

/-! ## Data model -/

/-- Environment override: a Go `map[string]string`, as the list of its entries
in key order (the order in which `fmt` prints a map). -/
abbrev Env := List (String × String)

/-- Dynamically typed Go value (`interface{}`) crossing the invocation boundary.
`other` stands for a value of any further dynamic type, carried by its `%v`
rendering. -/
inductive Value where
  | str (s : String)
  | strMap (m : Env)
  | int (n : Int)
  | bool (b : Bool)
  | other (shown : String)
  deriving DecidableEq, Repr

/-- Run-time panics that the code of `main.go` can raise. -/
inductive Panic where
  /-- Unchecked type assertion `x.(T)` on a value whose dynamic type is not `T`. -/
  | typeAssertion
  /-- Index expression `args[0]` on an empty slice. -/
  | indexOutOfRange
  /-- Slice expression `args[1:]` on an empty slice. -/
  | sliceBounds
  deriving DecidableEq, Repr

/-- Error value built by `errors.New`: it carries its message. -/
structure ErrorString where
  s : String
  deriving DecidableEq, Repr

/-- Go `errors.New`. -/
def errorsNew (text : String) : ErrorString := ⟨text⟩

/-- Go `(*errorString).Error`. -/
def ErrorString.Error (e : ErrorString) : String := e.s

/-- Rendering of a value under the `%v` verb of `fmt`. -/
def fmtV : Value → String
  | .str s => s
  | .strMap m => "map[" ++ " ".intercalate (m.map fun kv => kv.1 ++ ":" ++ kv.2) ++ "]"
  | .int n => toString n
  | .bool b => if b then "true" else "false"
  | .other shown => shown

/-- Comma-ok type assertion `v.(string)`: the string and `true`, or the zero
value `""` and `false`. -/
def assertStringOk : Value → String × Bool
  | .str s => (s, true)
  | _ => ("", false)

/-- Unchecked type assertion `v.(string)`: panics on a non-string. -/
def assertString : Value → Except Panic String
  | .str s => .ok s
  | _ => .error .typeAssertion

/-- Unchecked type assertion `v.(map[string]string)`. -/
def assertStrMap : Value → Except Panic Env
  | .strMap m => .ok m
  | _ => .error .typeAssertion

/-- Index expression `args[0]`. -/
def index0 : List Value → Except Panic Value
  | [] => .error .indexOutOfRange
  | v :: _ => .ok v

/-- Slice expression `args[1:]`. -/
def sliceFrom1 : List Value → Except Panic (List Value)
  | [] => .error .sliceBounds
  | _ :: rest => .ok rest

/-! ## Argument decoder -/

/-- Result triple `(cmd, args, err)` of `getCmdAndArgs`. -/
abbrev Decoded := String × List String × Option ErrorString

/-- The loop `for i, a := range arr[1:]` of `getCmdAndArgs`: `i` is the loop
index, `args` the slice accumulated so far, `ok` the variable set by the
comma-ok assertion on element 0 (the loop never assigns it). -/
def getCmdAndArgs.loop (cmd : String) (ok : Bool) :
    Nat → List Value → List String → Except Panic Decoded
  | _, [], args => .ok (cmd, args, none)
  | i, a :: rest, args =>
    match assertString a with
    | .error p => .error p
    | .ok s =>
      let args := args ++ [s]
      if !ok then
        .ok ("", [], some (errorsNew
          ("argument " ++ toString i ++ " (" ++ fmtV a ++ ") to " ++ cmd ++ " was not a string")))
      else
        getCmdAndArgs.loop cmd ok (i + 1) rest args

/-- Go `getCmdAndArgs(arr []interface{}) (cmd string, args []string, err error)`. -/
def getCmdAndArgs (arr : List Value) : Except Panic Decoded :=
  match arr with
  | [] => .ok ("", [], some (errorsNew "not enough arguments"))
  | a0 :: rest =>
    let (cmd, ok) := assertStringOk a0
    if !ok then
      .ok ("", [], some (errorsNew "cmd argument was not a string"))
    else if (a0 :: rest).length = 1 then
      .ok (cmd, [], none)
    else
      getCmdAndArgs.loop cmd ok 0 rest []

/-! ## Invocation dispatcher -/

/-- What the `Exec` primitive hands back: its two results `(ran, err)` and the
text it wrote into the two buffers passed by reference. -/
structure ExecOutcome (E : Type) where
  ran : Bool
  err : Option E
  stdout : String
  stderr : String

/-- The receiver `m *Module`: the execution primitives and `ExitStatus`, whose
code is outside `main.go`.  `E` is the type of the errors the primitives return,
`W` the state of the outside world on which they act. -/
structure Module (E W : Type) where
  /-- Method `Error()` of the errors returned by the primitives. -/
  Error : E → String
  Run : String → List String → W → Option E × W
  RunV : String → List String → W → Option E × W
  RunWith : Env → String → List String → W → Option E × W
  RunWithV : Env → String → List String → W → Option E × W
  Output : String → List String → W → (String × Option E) × W
  OutputWith : Env → String → List String → W → (String × Option E) × W
  Exec : Env → String → List String → W → ExecOutcome E × W
  ExitStatus : Option E → Int

/-- Value of a key/value pair handed to the logger. -/
inductive LogField (E : Type) where
  | method (name : String)
  | args (args : List Value)
  | decodeErr (err : ErrorString)
  | primErr (err : E)

/-- Severity of a log record. -/
inductive LogLevel where
  | info
  | error
  deriving DecidableEq, Repr

/-- One record written through `m.logger`. -/
structure LogEntry (E : Type) where
  level : LogLevel
  msg : String
  fields : List (String × LogField E)

/-- The value `Invoke` returns as `interface{}`. -/
inductive Ret where
  /-- An `error` value returned as it is. -/
  | rawErr (err : ErrorString)
  /-- A `map[string]interface{}`, as the list of its entries. -/
  | envelope (m : List (String × Value))
  /-- A `map[string]string`, as the list of its entries. -/
  | strEnvelope (m : List (String × String))
  deriving DecidableEq, Repr

/-- Everything observable of one call of `Invoke`: the value returned (or the
panic), the records logged, and the world the primitives left behind. -/
structure Invoked (E W : Type) where
  out : Except Panic Ret
  log : List (LogEntry E)
  world : W

/-- Go `(m *Module) GetMethods() []string`. -/
def GetMethods : List String :=
  ["Run", "RunV", "RunWith", "RunWithV", "Output", "OutputWith", "Exec"]

/-- The record `m.logger.Info("Invoke called", "method", method, "args", args)`. -/
def logInvoke {E : Type} (method : String) (args : List Value) : LogEntry E :=
  ⟨.info, "Invoke called", [("method", .method method), ("args", .args args)]⟩

/-- The record `m.logger.Error("failed to parse args in call to method", ...)`. -/
def logParse {E : Type} (method : String) (err : ErrorString) : LogEntry E :=
  ⟨.error, "failed to parse args in call to method",
    [("method", .method method), ("err", .decodeErr err)]⟩

/-- The record `m.logger.Error("method failed", "method", method, "err", err)`. -/
def logFailed {E : Type} (method : String) (err : E) : LogEntry E :=
  ⟨.error, "method failed", [("method", .method method), ("err", .primErr err)]⟩

/-- The record `m.logger.Error("unknown method", "method", method)`. -/
def logUnknown {E : Type} (method : String) : LogEntry E :=
  ⟨.error, "unknown method", [("method", .method method)]⟩

/-- Go `(m *Module) Invoke(method string, args []interface{}) interface{}`. -/
def Invoke {E W : Type} (m : Module E W) (method : String) (args : List Value) (w : W) :
    Invoked E W :=
  let log0 : List (LogEntry E) := [logInvoke method args]
  match method with
  | "Run" =>
    match getCmdAndArgs args with
    | .error p => ⟨.error p, log0, w⟩
    | .ok (_, _, some err) => ⟨.ok (.rawErr err), log0 ++ [logParse method err], w⟩
    | .ok (c, a, none) =>
      match m.Run c a w with
      | (some err, w1) =>
        ⟨.ok (.envelope [("error", .str (m.Error err)), ("code", .int (m.ExitStatus (some err)))]),
          log0 ++ [logFailed method err], w1⟩
      | (none, w1) => ⟨.ok (.envelope [("code", .int (m.ExitStatus none))]), log0, w1⟩
  | "RunV" =>
    match getCmdAndArgs args with
    | .error p => ⟨.error p, log0, w⟩
    | .ok (_, _, some err) => ⟨.ok (.rawErr err), log0 ++ [logParse method err], w⟩
    | .ok (c, a, none) =>
      match m.RunV c a w with
      | (some err, w1) =>
        ⟨.ok (.envelope [("error", .str (m.Error err)), ("code", .int (m.ExitStatus (some err)))]),
          log0 ++ [logFailed method err], w1⟩
      | (none, w1) => ⟨.ok (.envelope [("code", .int (m.ExitStatus none))]), log0, w1⟩
  | "RunWith" =>
    match index0 args >>= assertStrMap with
    | .error p => ⟨.error p, log0, w⟩
    | .ok env =>
    match sliceFrom1 args >>= getCmdAndArgs with
    | .error p => ⟨.error p, log0, w⟩
    | .ok (_, _, some err) => ⟨.ok (.rawErr err), log0 ++ [logParse method err], w⟩
    | .ok (c, a, none) =>
      match m.RunWith env c a w with
      | (some err, w1) =>
        ⟨.ok (.envelope [("error", .str (m.Error err)), ("code", .int (m.ExitStatus (some err)))]),
          log0 ++ [logFailed method err], w1⟩
      | (none, w1) => ⟨.ok (.envelope [("code", .int (m.ExitStatus none))]), log0, w1⟩
  | "RunWithV" =>
    match index0 args >>= assertStrMap with
    | .error p => ⟨.error p, log0, w⟩
    | .ok env =>
    match sliceFrom1 args >>= getCmdAndArgs with
    | .error p => ⟨.error p, log0, w⟩
    | .ok (_, _, some err) => ⟨.ok (.rawErr err), log0 ++ [logParse method err], w⟩
    | .ok (c, a, none) =>
      match m.RunWithV env c a w with
      | (some err, w1) =>
        ⟨.ok (.envelope [("error", .str (m.Error err)), ("code", .int (m.ExitStatus (some err)))]),
          log0 ++ [logFailed method err], w1⟩
      | (none, w1) => ⟨.ok (.envelope [("code", .int (m.ExitStatus none))]), log0, w1⟩
  | "Output" =>
    match sliceFrom1 args >>= getCmdAndArgs with
    | .error p => ⟨.error p, log0, w⟩
    | .ok (_, _, some err) => ⟨.ok (.rawErr err), log0 ++ [logParse method err], w⟩
    | .ok (c, a, none) =>
      match m.Output c a w with
      | ((_, some err), w1) =>
        ⟨.ok (.envelope [("error", .str (m.Error err)), ("code", .int (m.ExitStatus (some err)))]),
          log0 ++ [logFailed method err], w1⟩
      | ((output, none), w1) =>
        ⟨.ok (.envelope [("output", .str output), ("code", .int (m.ExitStatus none))]), log0, w1⟩
  | "OutputWith" =>
    match index0 args >>= assertStrMap with
    | .error p => ⟨.error p, log0, w⟩
    | .ok env =>
    match sliceFrom1 args >>= getCmdAndArgs with
    | .error p => ⟨.error p, log0, w⟩
    | .ok (_, _, some err) => ⟨.ok (.rawErr err), log0 ++ [logParse method err], w⟩
    | .ok (c, a, none) =>
      match m.OutputWith env c a w with
      | ((_, some err), w1) =>
        ⟨.ok (.envelope [("error", .str (m.Error err)), ("code", .int (m.ExitStatus (some err)))]),
          log0 ++ [logFailed method err], w1⟩
      | ((output, none), w1) =>
        ⟨.ok (.envelope [("output", .str output), ("code", .int (m.ExitStatus none))]), log0, w1⟩
  | "Exec" =>
    match index0 args >>= assertStrMap with
    | .error p => ⟨.error p, log0, w⟩
    | .ok env =>
    match sliceFrom1 args >>= getCmdAndArgs with
    | .error p => ⟨.error p, log0, w⟩
    | .ok (_, _, some err) =>
      ⟨.ok (.strEnvelope [("error", err.Error)]), log0 ++ [logParse method err], w⟩
    | .ok (c, a, none) =>
      match m.Exec env c a w with
      | (⟨_, some err, _, _⟩, w1) =>
        ⟨.ok (.envelope [("error", .str (m.Error err)), ("code", .int (m.ExitStatus (some err)))]),
          log0 ++ [logFailed method err], w1⟩
      | (⟨ran, none, stdout, stderr⟩, w1) =>
        ⟨.ok (.envelope [("ran", .bool ran), ("stdout", .str stdout), ("stderr", .str stderr),
            ("code", .int (m.ExitStatus none))]), log0, w1⟩
  | _ =>
    ⟨.ok (.envelope [("error", .str ("unknown method: " ++ method))]),
      log0 ++ [logUnknown method], w⟩

/-! ## Vocabulary of the statements -/

/-- Keys of the map returned by `Invoke`; a raw error value has none. -/
def Ret.keys : Ret → List String
  | .rawErr _ => []
  | .envelope m => m.map Prod.fst
  | .strEnvelope m => m.map Prod.fst

/-- The argument list holds strings only. -/
def AllStr (l : List Value) : Prop := ∀ v ∈ l, ∃ s, v = Value.str s

/-- The returned value bears an error: it is a raw error value, or a map with
the key `error`. -/
def ErrorBearing (v : Ret) : Prop := (∃ e, v = Ret.rawErr e) ∨ "error" ∈ v.keys

/-- The call returned (it did not panic), with a `code` entry when the decoder
had returned no error `derr`, and with an error-bearing value when it had. -/
def Answers {E W : Type} (r : Invoked E W) (derr : Option ErrorString) : Prop :=
  ∃ v, r.out = .ok v ∧ (derr = none → "code" ∈ v.keys) ∧ (derr ≠ none → ErrorBearing v)

/-- The call returned a `map[string]interface{}` that has the key `error` if and
only if the primitive returned the non-nil error `perr`, and that is then the
two-entry map of the error message and its exit status. -/
def ErrorIffFailed {E W : Type} (m : Module E W) (r : Invoked E W) (perr : Option E) : Prop :=
  ∃ e, r.out = .ok (Ret.envelope e) ∧
    ("error" ∈ (Ret.envelope e).keys ↔ perr ≠ none) ∧
    ∀ err, perr = some err →
      e = [("error", Value.str (m.Error err)), ("code", Value.int (m.ExitStatus (some err)))]

/-- The call returned a `map[string]interface{}` whose `code` entry is
`ExitStatus` of what the primitive returned as its error, `perr`; it is `0` on
success when `ExitStatus` maps nil to `0`. -/
def CodeIs {E W : Type} (m : Module E W) (r : Invoked E W) (perr : Option E) : Prop :=
  ∃ e, r.out = .ok (Ret.envelope e) ∧
    e.lookup "code" = some (Value.int (m.ExitStatus perr)) ∧
    (m.ExitStatus none = 0 → perr = none → e.lookup "code" = some (Value.int 0))

/-- The call returned the `map[string]interface{}` with exactly these entries,
whose keys are `keys`. -/
def ReturnsEnvelope {E W : Type} (r : Invoked E W) (keys : List String)
    (entries : List (String × Value)) : Prop :=
  r.out = .ok (Ret.envelope entries) ∧ (Ret.envelope entries).keys = keys

/-! ## A recording module

A concrete `Module` on which the statements are evaluated: its world is the
list of the primitive calls made so far, the command `false` fails with exit
status 1, a command `missing` cannot be started, every other command succeeds
and echoes its arguments. -/

/-- Error of the recording module: a message and an exit status. -/
structure ExitError where
  msg : String
  status : Int
  deriving DecidableEq, Repr

/-- One primitive call, as the recording module notes it. -/
structure Call where
  primitive : String
  env : Env
  cmd : String
  args : List String
  deriving DecidableEq, Repr

/-- Outcome scripted for a command by the recording module. -/
def scripted (cmd : String) : Option ExitError :=
  if cmd = "false" then some ⟨"exit status 1", 1⟩
  else if cmd = "missing" then some ⟨"executable file not found", -1⟩
  else none

/-- The recording module. -/
def recorder : Module ExitError (List Call) where
  Error := fun e => e.msg
  Run := fun c a w => (scripted c, w ++ [⟨"Run", [], c, a⟩])
  RunV := fun c a w => (scripted c, w ++ [⟨"RunV", [], c, a⟩])
  RunWith := fun env c a w => (scripted c, w ++ [⟨"RunWith", env, c, a⟩])
  RunWithV := fun env c a w => (scripted c, w ++ [⟨"RunWithV", env, c, a⟩])
  Output := fun c a w => ((" ".intercalate a, scripted c), w ++ [⟨"Output", [], c, a⟩])
  OutputWith := fun env c a w =>
    ((" ".intercalate a, scripted c), w ++ [⟨"OutputWith", env, c, a⟩])
  Exec := fun env c a w =>
    (⟨decide (c ≠ "missing"), scripted c, " ".intercalate a, ""⟩, w ++ [⟨"Exec", env, c, a⟩])
  ExitStatus := fun e => match e with
    | none => 0
    | some err => err.status

/-- A module whose every command is started and fails with the error `e`; its
world counts the primitive calls. -/
def failing (e : ExitError) : Module ExitError Nat where
  Error := fun err => err.msg
  Run := fun _ _ w => (some e, w + 1)
  RunV := fun _ _ w => (some e, w + 1)
  RunWith := fun _ _ _ w => (some e, w + 1)
  RunWithV := fun _ _ _ w => (some e, w + 1)
  Output := fun _ _ w => (("", some e), w + 1)
  OutputWith := fun _ _ _ w => (("", some e), w + 1)
  Exec := fun _ _ _ w => (⟨true, some e, "", ""⟩, w + 1)
  ExitStatus := fun err => match err with
    | none => 0
    | some x => x.status

/-- The call `r`, made in the world `w`, ran no primitive: it returned what the
same call returns on the other module (`r2`), and it left the world as it was. -/
def Atomic {E W E2 W2 : Type} (r : Invoked E W) (r2 : Invoked E2 W2) (w : W) : Prop :=
  r.out = r2.out ∧ r.world = w

/-! ## The argument decoder -/

/-- On strings only, the loop of `getCmdAndArgs` appends them all, in order. -/
theorem loop_all_strings (cmd : String) (xs : List String) :
    ∀ (i : Nat) (acc : List String),
      getCmdAndArgs.loop cmd true i (xs.map Value.str) acc = .ok (cmd, acc ++ xs, none) := by
  induction xs with
  | nil => intro i acc; simp [getCmdAndArgs.loop]
  | cons x xs ih =>
    intro i acc
    simp [getCmdAndArgs.loop, assertString, ih]

/-- A string command followed by strings decodes without error. -/
theorem decode_strings (x : String) (xs : List String) :
    getCmdAndArgs (Value.str x :: xs.map Value.str) = .ok (x, xs, none) := by
  cases xs with
  | nil => simp [getCmdAndArgs, assertStringOk]
  | cons y ys =>
    have h := loop_all_strings x (y :: ys) 0 []
    simp only [List.map_cons, List.nil_append] at h
    simp [getCmdAndArgs, assertStringOk, h]

/-- A command that is not a string is reported as a decode error. -/
theorem decode_not_string (v : Value) (rest : List Value) (hv : ∀ s, v ≠ Value.str s) :
    getCmdAndArgs (v :: rest) =
      .ok ("", [], some (errorsNew "cmd argument was not a string")) := by
  cases v with
  | str s => exact absurd rfl (hv s)
  | strMap m => simp [getCmdAndArgs, assertStringOk]
  | int n => simp [getCmdAndArgs, assertStringOk]
  | bool b => simp [getCmdAndArgs, assertStringOk]
  | other t => simp [getCmdAndArgs, assertStringOk]

/-- A list of string values is the image of a list of strings. -/
theorem AllStr.exists_map {l : List Value} (h : AllStr l) :
    ∃ xs : List String, l = xs.map Value.str := by
  induction l with
  | nil => exact ⟨[], rfl⟩
  | cons v rest ih =>
    obtain ⟨s, hs⟩ := h v (List.mem_cons_self v rest)
    obtain ⟨xs, hxs⟩ := ih (fun u hu => h u (List.mem_cons_of_mem v hu))
    exact ⟨s :: xs, by simp [hs, hxs]⟩

/-- The decoder returns, without a panic, on every list in which all elements
after element 0 are strings. -/
theorem decode_returns (args : List Value) (h : AllStr args.tail) :
    ∃ c a derr, getCmdAndArgs args = .ok (c, a, derr) := by
  cases args with
  | nil => exact ⟨_, _, _, rfl⟩
  | cons v rest =>
    obtain ⟨xs, hxs⟩ := AllStr.exists_map h
    simp only [List.tail_cons] at hxs
    subst hxs
    by_cases hv : ∃ s, v = Value.str s
    · obtain ⟨s, rfl⟩ := hv
      exact ⟨_, _, _, decode_strings s xs⟩
    · exact ⟨_, _, _, decode_not_string v _ (fun s hs => hv ⟨s, hs⟩)⟩

/-- C1: on a non-empty list of strings `getCmdAndArgs` returns a nil error, the
first string as the command and the remaining strings, unchanged and in order,
as the arguments; for a one-element list the argument list is empty. -/
theorem getCmdAndArgs_all_strings (x : String) (xs : List String) :
    getCmdAndArgs (Value.str x :: xs.map Value.str) = .ok (x, xs, none) ∧
    getCmdAndArgs [Value.str x] = .ok (x, [], none) :=
  ⟨decode_strings x xs, decode_strings x []⟩

/-- C2: decoding the empty list returns the error `not enough arguments`, with
an empty command and no arguments. -/
theorem getCmdAndArgs_empty :
    getCmdAndArgs [] = .ok ("", [], some (errorsNew "not enough arguments")) ∧
    (errorsNew "not enough arguments").Error = "not enough arguments" := by
  exact ⟨rfl, rfl⟩

/-- C3: when element 0 is not a string, `getCmdAndArgs` returns the error
`cmd argument was not a string`, whatever follows element 0. -/
theorem getCmdAndArgs_cmd_not_string (v : Value) (rest : List Value)
    (hv : ∀ s, v ≠ Value.str s) :
    getCmdAndArgs (v :: rest) =
      .ok ("", [], some (errorsNew "cmd argument was not a string")) ∧
    (errorsNew "cmd argument was not a string").Error = "cmd argument was not a string" :=
  ⟨decode_not_string v rest hv, rfl⟩

/-- C3 at the list `[7, {}, "a"]`. -/
theorem getCmdAndArgs_cmd_not_string_witness :
    (∀ s, Value.int 7 ≠ Value.str s) ∧
    getCmdAndArgs [Value.int 7, Value.strMap [], Value.str "a"] =
      .ok ("", [], some (errorsNew "cmd argument was not a string")) :=
  ⟨(by intro s h; cases h),
   (getCmdAndArgs_cmd_not_string (Value.int 7) [Value.strMap [], Value.str "a"]
     (by intro s h; cases h)).1⟩

/-- C4: on `["x", 1, "y"]` the decoder does not return the error
`argument 0 (1) to x was not a string`: the unchecked assertion on the element
`1` panics, so no decode error is returned at all. -/
theorem getCmdAndArgs_nonstring_arg_panics :
    getCmdAndArgs [Value.str "x", Value.int 1, Value.str "y"] = .error Panic.typeAssertion ∧
    getCmdAndArgs [Value.str "x", Value.int 1, Value.str "y"] ≠
      .ok ("", [], some (errorsNew "argument 0 (1) to x was not a string")) := by
  have h : getCmdAndArgs [Value.str "x", Value.int 1, Value.str "y"] =
      .error Panic.typeAssertion := by
    simp [getCmdAndArgs, assertStringOk, getCmdAndArgs.loop, assertString]
  exact ⟨h, by rw [h]; intro hc; cases hc⟩

/-! ## The dispatcher -/

/-- C5: for a method name outside the seven recognized ones `Invoke` returns
the one-entry envelope with key `error` and text `unknown method: ` followed by
the name, hence without a `code` entry, and leaves the world as it found it: no
primitive has run. -/
theorem Invoke_unknown_method {E W : Type} (m : Module E W) (name : String)
    (args : List Value) (w : W) (h : name ∉ GetMethods) :
    (Invoke m name args w).out =
        .ok (Ret.envelope [("error", Value.str ("unknown method: " ++ name))]) ∧
      (Invoke m name args w).world = w := by
  simp only [GetMethods, List.mem_cons, List.mem_singleton, List.not_mem_nil, or_false,
    not_or] at h
  obtain ⟨h1, h2, h3, h4, h5, h6, h7⟩ := h
  unfold Invoke
  split <;> first | contradiction | simp

/-- C5 at the method name `Bogus` with no arguments, on a world that already
holds one call. -/
theorem Invoke_unknown_method_witness :
    "Bogus" ∉ GetMethods ∧
      (Invoke recorder "Bogus" [] [⟨"Run", [], "ls", []⟩]).out =
        .ok (Ret.envelope [("error", Value.str "unknown method: Bogus")]) ∧
      (Invoke recorder "Bogus" [] [⟨"Run", [], "ls", []⟩]).world = [⟨"Run", [], "ls", []⟩] :=
  ⟨by decide, Invoke_unknown_method recorder "Bogus" [] [⟨"Run", [], "ls", []⟩] (by decide)⟩

/-- C6, as stated, fails: on argument lists of strings and string maps `Invoke`
panics when the environment argument of `RunWith` is a string, when `Exec` gets
the empty list, and when `Output` gets the empty list; none of these calls
returns a value. -/
theorem Invoke_panics_on_typed_input :
    (Invoke recorder "RunWith" [Value.str "x"] []).out = .error Panic.typeAssertion ∧
    (Invoke recorder "Exec" [] []).out = .error Panic.indexOutOfRange ∧
    (Invoke recorder "Output" [] []).out = .error Panic.sliceBounds ∧
    (∀ derr, ¬ Answers (Invoke recorder "RunWith" [Value.str "x"] []) derr) := by
  refine ⟨rfl, rfl, rfl, ?_⟩
  rintro derr ⟨v, hv, -⟩
  have h : (Invoke recorder "RunWith" [Value.str "x"] []).out = .error Panic.typeAssertion := rfl
  rw [h] at hv
  cases hv

/-- The decoder returns, without a panic, on the empty list, on every list whose
element 0 is not a string, and on every list whose elements after element 0 are
strings. -/
theorem decode_returns_of (args : List Value)
    (h : args = [] ∨ (∀ s, args.head? ≠ some (Value.str s)) ∨ AllStr args.tail) :
    ∃ c a derr, getCmdAndArgs args = .ok (c, a, derr) := by
  rcases h with rfl | hhead | htail
  · exact ⟨_, _, _, rfl⟩
  · cases args with
    | nil => exact ⟨_, _, _, rfl⟩
    | cons v rest =>
      exact ⟨_, _, _, decode_not_string v rest (fun s hs => hhead s (by simp [hs]))⟩
  · exact decode_returns args htail

/-- C6, amended: `Invoke` returns without a panic, with a `code` entry when
decoding succeeded and an error-bearing value when it failed, for `Run` and
`RunV` on every list `args` that is empty, or whose element 0 is not a string,
or whose elements after element 0 are strings, for `RunWith`, `RunWithV`,
`OutputWith` and `Exec` on such a list preceded by a string map, and for
`Output` on such a list preceded by any value. -/
theorem Invoke_returns {E W : Type} (m : Module E W) (w : W) (env : Env) (v : Value)
    (args : List Value)
    (hargs : args = [] ∨ (∀ s, args.head? ≠ some (Value.str s)) ∨ AllStr args.tail) :
    ∃ c a derr, getCmdAndArgs args = .ok (c, a, derr) ∧
      Answers (Invoke m "Run" args w) derr ∧
      Answers (Invoke m "RunV" args w) derr ∧
      Answers (Invoke m "RunWith" (Value.strMap env :: args) w) derr ∧
      Answers (Invoke m "RunWithV" (Value.strMap env :: args) w) derr ∧
      Answers (Invoke m "Output" (v :: args) w) derr ∧
      Answers (Invoke m "OutputWith" (Value.strMap env :: args) w) derr ∧
      Answers (Invoke m "Exec" (Value.strMap env :: args) w) derr := by
  obtain ⟨c, a, derr, hdec⟩ := decode_returns_of args hargs
  refine ⟨c, a, derr, hdec, ?_⟩
  cases derr with
  | some err =>
    simp [Answers, ErrorBearing, Ret.keys, Invoke, index0, assertStrMap, sliceFrom1, bind,
      Except.bind, hdec]
  | none =>
    refine ⟨?_, ?_, ?_, ?_, ?_, ?_, ?_⟩
    · rcases h : m.Run c a w with ⟨_ | e, w1⟩ <;>
        simp [Answers, Ret.keys, Invoke, hdec, h]
    · rcases h : m.RunV c a w with ⟨_ | e, w1⟩ <;>
        simp [Answers, Ret.keys, Invoke, hdec, h]
    · rcases h : m.RunWith env c a w with ⟨_ | e, w1⟩ <;>
        simp [Answers, Ret.keys, Invoke, index0, assertStrMap, sliceFrom1, bind,
          Except.bind, hdec, h]
    · rcases h : m.RunWithV env c a w with ⟨_ | e, w1⟩ <;>
        simp [Answers, Ret.keys, Invoke, index0, assertStrMap, sliceFrom1, bind,
          Except.bind, hdec, h]
    · rcases h : m.Output c a w with ⟨⟨text, _ | e⟩, w1⟩ <;>
        simp [Answers, Ret.keys, Invoke, sliceFrom1, bind, Except.bind, hdec, h]
    · rcases h : m.OutputWith env c a w with ⟨⟨text, _ | e⟩, w1⟩ <;>
        simp [Answers, Ret.keys, Invoke, index0, assertStrMap, sliceFrom1, bind,
          Except.bind, hdec, h]
    · rcases h : m.Exec env c a w with ⟨⟨ran, _ | e, so, se⟩, w1⟩ <;>
        simp [Answers, Ret.keys, Invoke, index0, assertStrMap, sliceFrom1, bind,
          Except.bind, hdec, h]

/-- C6, amended, at the argument list `[{}, {}]`, whose element 0 is a map and
which a string does not follow: `Run` on it, and `RunWith` on it preceded by an
environment, return the decode error. -/
theorem Invoke_returns_witness :
    ([Value.strMap [], Value.strMap []] = [] ∨
        (∀ s, [Value.strMap [], Value.strMap []].head? ≠ some (Value.str s)) ∨
        AllStr [Value.strMap [], Value.strMap []].tail) ∧
      ∃ c a derr, getCmdAndArgs [Value.strMap [], Value.strMap []] = .ok (c, a, derr) ∧
        Answers (Invoke recorder "Run" [Value.strMap [], Value.strMap []] []) derr ∧
        Answers (Invoke recorder "RunWith"
          [Value.strMap [], Value.strMap [], Value.strMap []] []) derr :=
  have hargs : [Value.strMap [], Value.strMap []] = [] ∨
      (∀ s, [Value.strMap [], Value.strMap []].head? ≠ some (Value.str s)) ∨
      AllStr [Value.strMap [], Value.strMap []].tail :=
    Or.inr (Or.inl (by intro s hs; simp at hs))
  have h := Invoke_returns recorder [] [] (Value.str "a") [Value.strMap [], Value.strMap []]
    hargs
  ⟨hargs, h.imp fun _ hc => hc.imp fun _ ha => ha.imp fun _ hd => ⟨hd.1, hd.2.1, hd.2.2.2.1⟩⟩

/-- C10: when the decoder returns an error, `Invoke` returns that error value
itself for `Run`, `RunV` (decoding the whole list), `RunWith`, `RunWithV`,
`OutputWith` (decoding what follows the environment) and `Output` (decoding what
follows element 0); for `Exec` it returns the one-entry string map holding the
message under `error`, without a `code` entry. -/
theorem Invoke_decode_error {E W : Type} (m : Module E W) (w : W) (env : Env) (v : Value)
    (args : List Value) (c : String) (a : List String) (err : ErrorString)
    (hdec : getCmdAndArgs args = .ok (c, a, some err)) :
    (Invoke m "Run" args w).out = .ok (Ret.rawErr err) ∧
    (Invoke m "RunV" args w).out = .ok (Ret.rawErr err) ∧
    (Invoke m "RunWith" (Value.strMap env :: args) w).out = .ok (Ret.rawErr err) ∧
    (Invoke m "RunWithV" (Value.strMap env :: args) w).out = .ok (Ret.rawErr err) ∧
    (Invoke m "Output" (v :: args) w).out = .ok (Ret.rawErr err) ∧
    (Invoke m "OutputWith" (Value.strMap env :: args) w).out = .ok (Ret.rawErr err) ∧
    (Invoke m "Exec" (Value.strMap env :: args) w).out =
      .ok (Ret.strEnvelope [("error", err.Error)]) := by
  simp [Invoke, index0, assertStrMap, sliceFrom1, bind, Except.bind, hdec]

/-- C10 at the argument list `[3]`, whose command is not a string. -/
theorem Invoke_decode_error_witness :
    getCmdAndArgs [Value.int 3] =
        .ok ("", [], some (errorsNew "cmd argument was not a string")) ∧
      (Invoke recorder "RunWith" [Value.strMap [("A", "1")], Value.int 3] []).out =
        .ok (Ret.rawErr (errorsNew "cmd argument was not a string")) ∧
      (Invoke recorder "Exec" [Value.strMap [("A", "1")], Value.int 3] []).out =
        .ok (Ret.strEnvelope [("error", "cmd argument was not a string")]) :=
  have h := Invoke_decode_error recorder [] [("A", "1")] (Value.str "ignored") [Value.int 3]
    "" [] (errorsNew "cmd argument was not a string") rfl
  ⟨rfl, h.2.2.1, h.2.2.2.2.2.2⟩

/-- C7: when decoding succeeds, the map `Invoke` returns has the key `error`
exactly when the primitive returned a non-nil error, and it is then the two-entry
map of `error` (the message) and `code` (the exit status of that error). -/
theorem Invoke_error_iff_failed {E W : Type} (m : Module E W) (w : W) (env : Env) (v : Value)
    (args : List Value) (c : String) (a : List String)
    (hdec : getCmdAndArgs args = .ok (c, a, none)) :
    ErrorIffFailed m (Invoke m "Run" args w) (m.Run c a w).1 ∧
    ErrorIffFailed m (Invoke m "RunV" args w) (m.RunV c a w).1 ∧
    ErrorIffFailed m (Invoke m "RunWith" (Value.strMap env :: args) w) (m.RunWith env c a w).1 ∧
    ErrorIffFailed m (Invoke m "RunWithV" (Value.strMap env :: args) w)
      (m.RunWithV env c a w).1 ∧
    ErrorIffFailed m (Invoke m "Output" (v :: args) w) (m.Output c a w).1.2 ∧
    ErrorIffFailed m (Invoke m "OutputWith" (Value.strMap env :: args) w)
      (m.OutputWith env c a w).1.2 ∧
    ErrorIffFailed m (Invoke m "Exec" (Value.strMap env :: args) w) (m.Exec env c a w).1.err := by
  refine ⟨?_, ?_, ?_, ?_, ?_, ?_, ?_⟩
  · rcases h : m.Run c a w with ⟨_ | e, w1⟩ <;>
      simp [ErrorIffFailed, Ret.keys, Invoke, hdec, h]
  · rcases h : m.RunV c a w with ⟨_ | e, w1⟩ <;>
      simp [ErrorIffFailed, Ret.keys, Invoke, hdec, h]
  · rcases h : m.RunWith env c a w with ⟨_ | e, w1⟩ <;>
      simp [ErrorIffFailed, Ret.keys, Invoke, index0, assertStrMap, sliceFrom1, bind,
        Except.bind, hdec, h]
  · rcases h : m.RunWithV env c a w with ⟨_ | e, w1⟩ <;>
      simp [ErrorIffFailed, Ret.keys, Invoke, index0, assertStrMap, sliceFrom1, bind,
        Except.bind, hdec, h]
  · rcases h : m.Output c a w with ⟨⟨text, _ | e⟩, w1⟩ <;>
      simp [ErrorIffFailed, Ret.keys, Invoke, sliceFrom1, bind, Except.bind, hdec, h]
  · rcases h : m.OutputWith env c a w with ⟨⟨text, _ | e⟩, w1⟩ <;>
      simp [ErrorIffFailed, Ret.keys, Invoke, index0, assertStrMap, sliceFrom1, bind,
        Except.bind, hdec, h]
  · rcases h : m.Exec env c a w with ⟨⟨ran, _ | e, so, se⟩, w1⟩ <;>
      simp [ErrorIffFailed, Ret.keys, Invoke, index0, assertStrMap, sliceFrom1, bind,
        Except.bind, hdec, h]

/-- C7 at `Run` of the failing command `false`. -/
theorem Invoke_error_iff_failed_witness :
    getCmdAndArgs [Value.str "false", Value.str "a"] = .ok ("false", ["a"], none) ∧
      ErrorIffFailed recorder (Invoke recorder "Run" [Value.str "false", Value.str "a"] [])
        (recorder.Run "false" ["a"] []).1 :=
  ⟨rfl, (Invoke_error_iff_failed recorder [] [] (Value.int 0)
    [Value.str "false", Value.str "a"] "false" ["a"] rfl).1⟩

/-- C8: when decoding succeeds, the `code` entry of the map `Invoke` returns is
`ExitStatus` applied to the error the primitive returned (nil on success); so it
is `0` on success whenever `ExitStatus` maps nil to `0`. -/
theorem Invoke_code_is_exit_status {E W : Type} (m : Module E W) (w : W) (env : Env)
    (v : Value) (args : List Value) (c : String) (a : List String)
    (hdec : getCmdAndArgs args = .ok (c, a, none)) :
    CodeIs m (Invoke m "Run" args w) (m.Run c a w).1 ∧
    CodeIs m (Invoke m "RunV" args w) (m.RunV c a w).1 ∧
    CodeIs m (Invoke m "RunWith" (Value.strMap env :: args) w) (m.RunWith env c a w).1 ∧
    CodeIs m (Invoke m "RunWithV" (Value.strMap env :: args) w) (m.RunWithV env c a w).1 ∧
    CodeIs m (Invoke m "Output" (v :: args) w) (m.Output c a w).1.2 ∧
    CodeIs m (Invoke m "OutputWith" (Value.strMap env :: args) w) (m.OutputWith env c a w).1.2 ∧
    CodeIs m (Invoke m "Exec" (Value.strMap env :: args) w) (m.Exec env c a w).1.err := by
  refine ⟨?_, ?_, ?_, ?_, ?_, ?_, ?_⟩
  · rcases h : m.Run c a w with ⟨_ | e, w1⟩ <;>
      simp [CodeIs, List.lookup, Invoke, hdec, h]
  · rcases h : m.RunV c a w with ⟨_ | e, w1⟩ <;>
      simp [CodeIs, List.lookup, Invoke, hdec, h]
  · rcases h : m.RunWith env c a w with ⟨_ | e, w1⟩ <;>
      simp [CodeIs, List.lookup, Invoke, index0, assertStrMap, sliceFrom1, bind,
        Except.bind, hdec, h]
  · rcases h : m.RunWithV env c a w with ⟨_ | e, w1⟩ <;>
      simp [CodeIs, List.lookup, Invoke, index0, assertStrMap, sliceFrom1, bind,
        Except.bind, hdec, h]
  · rcases h : m.Output c a w with ⟨⟨text, _ | e⟩, w1⟩ <;>
      simp [CodeIs, List.lookup, Invoke, sliceFrom1, bind, Except.bind, hdec, h]
  · rcases h : m.OutputWith env c a w with ⟨⟨text, _ | e⟩, w1⟩ <;>
      simp [CodeIs, List.lookup, Invoke, index0, assertStrMap, sliceFrom1, bind,
        Except.bind, hdec, h]
  · rcases h : m.Exec env c a w with ⟨⟨ran, _ | e, so, se⟩, w1⟩ <;>
      simp [CodeIs, List.lookup, Invoke, index0, assertStrMap, sliceFrom1, bind,
        Except.bind, hdec, h]

/-- C8 at `Exec` of the command `echo`, which succeeds. -/
theorem Invoke_code_is_exit_status_witness :
    getCmdAndArgs [Value.str "echo", Value.str "a"] = .ok ("echo", ["a"], none) ∧
      CodeIs recorder
        (Invoke recorder "Exec" [Value.strMap [], Value.str "echo", Value.str "a"] [])
        (recorder.Exec [] "echo" ["a"] []).1.err :=
  ⟨rfl, (Invoke_code_is_exit_status recorder [] [] (Value.int 0)
    [Value.str "echo", Value.str "a"] "echo" ["a"] rfl).2.2.2.2.2.2⟩

/-- C9: when decoding succeeds and the primitive returns no error, `Invoke`
returns the map with the keys `code` for `Run`, `RunV`, `RunWith` and `RunWithV`;
`output`, `code` for `Output` and `OutputWith`, `output` being the text the
primitive returned; `ran`, `stdout`, `stderr`, `code` for `Exec`, holding the
flag the primitive returned and what it wrote into the two buffers. -/
theorem Invoke_success_shape {E W : Type} (m : Module E W) (w : W) (env : Env) (v : Value)
    (args : List Value) (c : String) (a : List String)
    (hdec : getCmdAndArgs args = .ok (c, a, none)) :
    ((m.Run c a w).1 = none →
      ReturnsEnvelope (Invoke m "Run" args w) ["code"]
        [("code", Value.int (m.ExitStatus none))]) ∧
    ((m.RunV c a w).1 = none →
      ReturnsEnvelope (Invoke m "RunV" args w) ["code"]
        [("code", Value.int (m.ExitStatus none))]) ∧
    ((m.RunWith env c a w).1 = none →
      ReturnsEnvelope (Invoke m "RunWith" (Value.strMap env :: args) w) ["code"]
        [("code", Value.int (m.ExitStatus none))]) ∧
    ((m.RunWithV env c a w).1 = none →
      ReturnsEnvelope (Invoke m "RunWithV" (Value.strMap env :: args) w) ["code"]
        [("code", Value.int (m.ExitStatus none))]) ∧
    (∀ text, (m.Output c a w).1 = (text, none) →
      ReturnsEnvelope (Invoke m "Output" (v :: args) w) ["output", "code"]
        [("output", Value.str text), ("code", Value.int (m.ExitStatus none))]) ∧
    (∀ text, (m.OutputWith env c a w).1 = (text, none) →
      ReturnsEnvelope (Invoke m "OutputWith" (Value.strMap env :: args) w) ["output", "code"]
        [("output", Value.str text), ("code", Value.int (m.ExitStatus none))]) ∧
    (∀ ran out err, (m.Exec env c a w).1 = ⟨ran, none, out, err⟩ →
      ReturnsEnvelope (Invoke m "Exec" (Value.strMap env :: args) w)
        ["ran", "stdout", "stderr", "code"]
        [("ran", Value.bool ran), ("stdout", Value.str out), ("stderr", Value.str err),
          ("code", Value.int (m.ExitStatus none))]) := by
  refine ⟨?_, ?_, ?_, ?_, ?_, ?_, ?_⟩
  · rcases h : m.Run c a w with ⟨_ | e, w1⟩ <;>
      simp [ReturnsEnvelope, Ret.keys, Invoke, hdec, h]
  · rcases h : m.RunV c a w with ⟨_ | e, w1⟩ <;>
      simp [ReturnsEnvelope, Ret.keys, Invoke, hdec, h]
  · rcases h : m.RunWith env c a w with ⟨_ | e, w1⟩ <;>
      simp [ReturnsEnvelope, Ret.keys, Invoke, index0, assertStrMap, sliceFrom1, bind,
        Except.bind, hdec, h]
  · rcases h : m.RunWithV env c a w with ⟨_ | e, w1⟩ <;>
      simp [ReturnsEnvelope, Ret.keys, Invoke, index0, assertStrMap, sliceFrom1, bind,
        Except.bind, hdec, h]
  · rcases h : m.Output c a w with ⟨⟨text, _ | e⟩, w1⟩ <;>
      simp [ReturnsEnvelope, Ret.keys, Invoke, sliceFrom1, bind, Except.bind, hdec, h]
  · rcases h : m.OutputWith env c a w with ⟨⟨text, _ | e⟩, w1⟩ <;>
      simp [ReturnsEnvelope, Ret.keys, Invoke, index0, assertStrMap, sliceFrom1, bind,
        Except.bind, hdec, h]
  · rcases h : m.Exec env c a w with ⟨⟨ran, _ | e, so, se⟩, w1⟩ <;>
      simp [ReturnsEnvelope, Ret.keys, Invoke, index0, assertStrMap, sliceFrom1, bind,
        Except.bind, hdec, h]

/-- C9 at `Output` of the command `echo` with the arguments `a` and `b`. -/
theorem Invoke_success_shape_witness :
    getCmdAndArgs [Value.str "echo", Value.str "a", Value.str "b"] =
        .ok ("echo", ["a", "b"], none) ∧
      (recorder.Output "echo" ["a", "b"] []).1 = ("a b", none) ∧
      ReturnsEnvelope
        (Invoke recorder "Output"
          [Value.int 0, Value.str "echo", Value.str "a", Value.str "b"] [])
        ["output", "code"] [("output", Value.str "a b"), ("code", Value.int 0)] :=
  ⟨rfl, rfl, (Invoke_success_shape recorder [] [] (Value.int 0)
    [Value.str "echo", Value.str "a", Value.str "b"] "echo" ["a", "b"] rfl).2.2.2.2.1
      "a b" rfl⟩

/-- C11, as stated, fails: for the command `false`, which the primitive reports
as started (`ran = true`) and failed with exit status 1, `Exec` returns the map
of `error` and `code = 1`, which has no `ran` entry at all. -/
theorem Invoke_Exec_exit_one_has_no_ran :
    (recorder.Exec [] "false" [] []).1.ran = true ∧
    recorder.ExitStatus (recorder.Exec [] "false" [] []).1.err = 1 ∧
    (Invoke recorder "Exec" [Value.strMap [], Value.str "false"] []).out =
      .ok (Ret.envelope [("error", Value.str "exit status 1"), ("code", Value.int 1)]) ∧
    (∀ e, (Invoke recorder "Exec" [Value.strMap [], Value.str "false"] []).out =
      .ok (Ret.envelope e) → e.lookup "ran" ≠ some (Value.bool true)) := by
  refine ⟨rfl, rfl, rfl, ?_⟩
  intro e he
  have h : (Invoke recorder "Exec" [Value.strMap [], Value.str "false"] []).out =
      .ok (Ret.envelope [("error", Value.str "exit status 1"), ("code", Value.int 1)]) := rfl
  rw [h] at he
  injection he with he
  injection he with he
  subst he
  simp [List.lookup]

/-- C11, amended: when decoding succeeds and the `Exec` primitive returns an
error, whatever flag `ran` it reports, `Invoke` returns the two-entry map of
`error` and `code`, in which `ran` is absent; `code` is `1` when the exit status
of the error is `1` (a process that started and exited with 1), and is not `0`
when that exit status is not `0` (an executable that could not be started). -/
theorem Invoke_Exec_failure {E W : Type} (m : Module E W) (w : W) (env : Env)
    (args : List Value) (c : String) (a : List String) (err : E)
    (hdec : getCmdAndArgs args = .ok (c, a, none))
    (hexec : (m.Exec env c a w).1.err = some err) :
    ∃ e, (Invoke m "Exec" (Value.strMap env :: args) w).out = .ok (Ret.envelope e) ∧
      e = [("error", Value.str (m.Error err)), ("code", Value.int (m.ExitStatus (some err)))] ∧
      e.lookup "ran" = none ∧
      (m.ExitStatus (some err) = 1 → e.lookup "code" = some (Value.int 1)) ∧
      (m.ExitStatus (some err) ≠ 0 → e.lookup "code" ≠ some (Value.int 0)) := by
  rcases h : m.Exec env c a w with ⟨⟨ran, perr, so, se⟩, w1⟩
  rw [h] at hexec
  simp only at hexec
  subst hexec
  refine ⟨_, by simp [Invoke, index0, assertStrMap, sliceFrom1, bind, Except.bind, hdec, h],
    rfl, by simp [List.lookup], ?_, ?_⟩
  · intro h1
    simp [List.lookup, h1]
  · intro h0
    simpa [List.lookup] using h0

/-- C11, amended, at `Exec` of the command `missing`, which cannot be started. -/
theorem Invoke_Exec_failure_witness :
    getCmdAndArgs [Value.str "missing"] = .ok ("missing", [], none) ∧
      (recorder.Exec [] "missing" [] []).1.err = some ⟨"executable file not found", -1⟩ ∧
      ∃ e, (Invoke recorder "Exec" [Value.strMap [], Value.str "missing"] []).out =
          .ok (Ret.envelope e) ∧
        e = [("error", Value.str "executable file not found"), ("code", Value.int (-1))] ∧
        e.lookup "ran" = none :=
  have h := Invoke_Exec_failure recorder [] [] [Value.str "missing"] "missing" []
    ⟨"executable file not found", -1⟩ rfl rfl
  ⟨rfl, rfl, h.imp fun _ he => ⟨he.1, he.2.1, he.2.2.1⟩⟩

/-- C12, as stated, fails: when the command run by `Run` exits with status 3,
the primitive returns an error and `Invoke` returns the map of `error` and
`code = 3`, not the one-entry map of `code = 3`. -/
theorem Invoke_Run_exit_three_has_error :
    getCmdAndArgs [Value.str "sh"] = .ok ("sh", [], none) ∧
    (failing ⟨"exit status 3", 3⟩).ExitStatus
      ((failing ⟨"exit status 3", 3⟩).Run "sh" [] 0).1 = 3 ∧
    (Invoke (failing ⟨"exit status 3", 3⟩) "Run" [Value.str "sh"] 0).out =
      .ok (Ret.envelope [("error", Value.str "exit status 3"), ("code", Value.int 3)]) ∧
    (Invoke (failing ⟨"exit status 3", 3⟩) "Run" [Value.str "sh"] 0).out ≠
      .ok (Ret.envelope [("code", Value.int 3)]) := by
  refine ⟨rfl, rfl, rfl, ?_⟩
  have h : (Invoke (failing ⟨"exit status 3", 3⟩) "Run" [Value.str "sh"] 0).out =
      .ok (Ret.envelope [("error", Value.str "exit status 3"), ("code", Value.int 3)]) := rfl
  rw [h]
  intro hc
  injection hc with hc
  injection hc with hc
  simp at hc

/-- C12, amended: when decoding succeeds and the exit status extracted from
what `Run` returned is 3, the `code` entry of the map `Invoke` returns is 3; the
map is the one-entry map of `code` only when `Run` returned no error, and is the
map of `error` and `code` when it returned one, which is always so when
`ExitStatus` maps nil to `0`. -/
theorem Invoke_Run_exit_three {E W : Type} (m : Module E W) (w : W) (args : List Value)
    (c : String) (a : List String)
    (hdec : getCmdAndArgs args = .ok (c, a, none))
    (hstatus : m.ExitStatus (m.Run c a w).1 = 3) :
    (∃ e, (Invoke m "Run" args w).out = .ok (Ret.envelope e) ∧
      e.lookup "code" = some (Value.int 3)) ∧
    ((m.Run c a w).1 = none →
      (Invoke m "Run" args w).out = .ok (Ret.envelope [("code", Value.int 3)])) ∧
    (∀ err, (m.Run c a w).1 = some err →
      (Invoke m "Run" args w).out =
        .ok (Ret.envelope [("error", Value.str (m.Error err)), ("code", Value.int 3)])) ∧
    (m.ExitStatus none = 0 → ∃ err, (m.Run c a w).1 = some err) := by
  rcases h : m.Run c a w with ⟨_ | e, w1⟩
  · rw [h] at hstatus
    simp only at hstatus
    simp [Invoke, hdec, h, hstatus, List.lookup]
  · rw [h] at hstatus
    simp only at hstatus
    simp [Invoke, hdec, h, hstatus, List.lookup]

/-- C12, amended, at a command that exits with status 3. -/
theorem Invoke_Run_exit_three_witness :
    getCmdAndArgs [Value.str "sh"] = .ok ("sh", [], none) ∧
      (failing ⟨"exit status 3", 3⟩).ExitStatus
        ((failing ⟨"exit status 3", 3⟩).Run "sh" [] 0).1 = 3 ∧
      ∃ e, (Invoke (failing ⟨"exit status 3", 3⟩) "Run" [Value.str "sh"] 0).out =
          .ok (Ret.envelope e) ∧ e.lookup "code" = some (Value.int 3) :=
  ⟨rfl, rfl,
    (Invoke_Run_exit_three (failing ⟨"exit status 3", 3⟩) 0 [Value.str "sh"] "sh" [] rfl rfl).1⟩

/-- On a recognized method `Invoke` neither logs `unknown method` nor returns
the one-entry map of the unknown-method branch. -/
theorem recognized_not_unknown {E W : Type} (m : Module E W) (name : String)
    (args : List Value) (w : W) (h : name ∈ GetMethods) :
    (Invoke m name args w).out ≠
        .ok (Ret.envelope [("error", Value.str ("unknown method: " ++ name))]) ∧
      ¬ ∃ e ∈ (Invoke m name args w).log, e.msg = "unknown method" := by
  simp only [GetMethods, List.mem_cons, List.mem_singleton, List.not_mem_nil, or_false] at h
  rcases h with rfl | rfl | rfl | rfl | rfl | rfl | rfl
  all_goals
    simp only [Invoke]
    constructor
    · repeat' split
      all_goals simp
    · repeat' split
      all_goals simp [logInvoke, logParse, logFailed]

/-- On any other method name `Invoke` logs `unknown method` and returns the
one-entry map of the unknown-method branch. -/
theorem unrecognized_unknown {E W : Type} (m : Module E W) (name : String)
    (args : List Value) (w : W) (h : name ∉ GetMethods) :
    (Invoke m name args w).out =
        .ok (Ret.envelope [("error", Value.str ("unknown method: " ++ name))]) ∧
      ∃ e ∈ (Invoke m name args w).log, e.msg = "unknown method" := by
  simp only [GetMethods, List.mem_cons, List.mem_singleton, List.not_mem_nil, or_false,
    not_or] at h
  obtain ⟨h1, h2, h3, h4, h5, h6, h7⟩ := h
  unfold Invoke
  split <;> first | contradiction | simp [logUnknown]

/-- C13: `GetMethods` is the list of the seven names `Run`, `RunV`, `RunWith`,
`RunWithV`, `Output`, `OutputWith`, `Exec`, in this order and without
duplicates, and for every name `Invoke` takes its unknown-method branch (it logs
`unknown method` and returns the one-entry error map) if and only if the name is
not in that list. -/
theorem GetMethods_agrees_with_Invoke {E W : Type} (m : Module E W) (name : String)
    (args : List Value) (w : W) :
    GetMethods = ["Run", "RunV", "RunWith", "RunWithV", "Output", "OutputWith", "Exec"] ∧
    GetMethods.Nodup ∧ GetMethods.length = 7 ∧
    ((∃ e ∈ (Invoke m name args w).log, e.msg = "unknown method") ↔ name ∉ GetMethods) ∧
    ((Invoke m name args w).out =
        .ok (Ret.envelope [("error", Value.str ("unknown method: " ++ name))]) ↔
      name ∉ GetMethods) := by
  refine ⟨rfl, by decide, rfl, ?_, ?_⟩
  · constructor
    · intro hlog hmem
      exact (recognized_not_unknown m name args w hmem).2 hlog
    · intro hnot
      exact (unrecognized_unknown m name args w hnot).2
  · constructor
    · intro hout hmem
      exact (recognized_not_unknown m name args w hmem).1 hout
    · intro hnot
      exact (unrecognized_unknown m name args w hnot).1

/-- C14: when the decoder returns an error, `Invoke` runs no primitive, for each
of the seven methods: the value it returns is the one it returns on any other
module, and the world is left as it was. -/
theorem Invoke_decode_failure_atomic {E W E2 W2 : Type} (m : Module E W) (m2 : Module E2 W2)
    (w : W) (w2 : W2) (env : Env) (v : Value) (args : List Value) (c : String)
    (a : List String) (err : ErrorString)
    (hdec : getCmdAndArgs args = .ok (c, a, some err)) :
    Atomic (Invoke m "Run" args w) (Invoke m2 "Run" args w2) w ∧
    Atomic (Invoke m "RunV" args w) (Invoke m2 "RunV" args w2) w ∧
    Atomic (Invoke m "RunWith" (Value.strMap env :: args) w)
      (Invoke m2 "RunWith" (Value.strMap env :: args) w2) w ∧
    Atomic (Invoke m "RunWithV" (Value.strMap env :: args) w)
      (Invoke m2 "RunWithV" (Value.strMap env :: args) w2) w ∧
    Atomic (Invoke m "Output" (v :: args) w) (Invoke m2 "Output" (v :: args) w2) w ∧
    Atomic (Invoke m "OutputWith" (Value.strMap env :: args) w)
      (Invoke m2 "OutputWith" (Value.strMap env :: args) w2) w ∧
    Atomic (Invoke m "Exec" (Value.strMap env :: args) w)
      (Invoke m2 "Exec" (Value.strMap env :: args) w2) w := by
  simp [Atomic, Invoke, index0, assertStrMap, sliceFrom1, bind, Except.bind, hdec]

/-- C14 at the empty command list, on the recording module and a module whose
commands all fail. -/
theorem Invoke_decode_failure_atomic_witness :
    getCmdAndArgs [] = .ok ("", [], some (errorsNew "not enough arguments")) ∧
      Atomic (Invoke recorder "Run" [] []) (Invoke (failing ⟨"killed", 9⟩) "Run" [] 0) [] ∧
      Atomic (Invoke recorder "Exec" [Value.strMap []] [])
        (Invoke (failing ⟨"killed", 9⟩) "Exec" [Value.strMap []] 0) [] :=
  have h := Invoke_decode_failure_atomic recorder (failing ⟨"killed", 9⟩) [] 0 []
    (Value.int 0) [] "" [] (errorsNew "not enough arguments") rfl
  ⟨rfl, h.1, h.2.2.2.2.2.2⟩

/-- C15: for `RunWith`, `RunWithV`, `OutputWith` and `Exec` the primitive runs
with argument 0 as its environment and with the command and arguments decoded
from the elements after argument 0; when argument 0 is not a string map the call
panics on the type assertion, whatever the remaining elements are, and no
primitive has run. -/
theorem Invoke_env_is_argument_zero {E W : Type} (m : Module E W) (w : W) (calls : List Call)
    (env : Env) (args : List Value) (c : String) (a : List String)
    (v : Value) (rest : List Value)
    (hdec : getCmdAndArgs args = .ok (c, a, none))
    (hv : ∀ e, v ≠ Value.strMap e) :
    ((Invoke m "RunWith" (Value.strMap env :: args) w).world = (m.RunWith env c a w).2 ∧
      (Invoke m "RunWithV" (Value.strMap env :: args) w).world = (m.RunWithV env c a w).2 ∧
      (Invoke m "OutputWith" (Value.strMap env :: args) w).world =
        (m.OutputWith env c a w).2 ∧
      (Invoke m "Exec" (Value.strMap env :: args) w).world = (m.Exec env c a w).2) ∧
    ((Invoke recorder "RunWith" (Value.strMap env :: args) calls).world =
        calls ++ [⟨"RunWith", env, c, a⟩] ∧
      (Invoke recorder "RunWithV" (Value.strMap env :: args) calls).world =
        calls ++ [⟨"RunWithV", env, c, a⟩] ∧
      (Invoke recorder "OutputWith" (Value.strMap env :: args) calls).world =
        calls ++ [⟨"OutputWith", env, c, a⟩] ∧
      (Invoke recorder "Exec" (Value.strMap env :: args) calls).world =
        calls ++ [⟨"Exec", env, c, a⟩]) ∧
    (((Invoke m "RunWith" (v :: rest) w).out = .error Panic.typeAssertion ∧
        (Invoke m "RunWith" (v :: rest) w).world = w) ∧
      ((Invoke m "RunWithV" (v :: rest) w).out = .error Panic.typeAssertion ∧
        (Invoke m "RunWithV" (v :: rest) w).world = w) ∧
      ((Invoke m "OutputWith" (v :: rest) w).out = .error Panic.typeAssertion ∧
        (Invoke m "OutputWith" (v :: rest) w).world = w) ∧
      ((Invoke m "Exec" (v :: rest) w).out = .error Panic.typeAssertion ∧
        (Invoke m "Exec" (v :: rest) w).world = w)) := by
  refine ⟨⟨?_, ?_, ?_, ?_⟩, ⟨?_, ?_, ?_, ?_⟩, ?_⟩
  · rcases h : m.RunWith env c a w with ⟨_ | e, w1⟩ <;>
      simp [Invoke, index0, assertStrMap, sliceFrom1, bind, Except.bind, hdec, h]
  · rcases h : m.RunWithV env c a w with ⟨_ | e, w1⟩ <;>
      simp [Invoke, index0, assertStrMap, sliceFrom1, bind, Except.bind, hdec, h]
  · rcases h : m.OutputWith env c a w with ⟨⟨text, _ | e⟩, w1⟩ <;>
      simp [Invoke, index0, assertStrMap, sliceFrom1, bind, Except.bind, hdec, h]
  · rcases h : m.Exec env c a w with ⟨⟨ran, _ | e, so, se⟩, w1⟩ <;>
      simp [Invoke, index0, assertStrMap, sliceFrom1, bind, Except.bind, hdec, h]
  · rcases h : scripted c with _ | e <;>
      simp [Invoke, index0, assertStrMap, sliceFrom1, bind, Except.bind, hdec, recorder, h]
  · rcases h : scripted c with _ | e <;>
      simp [Invoke, index0, assertStrMap, sliceFrom1, bind, Except.bind, hdec, recorder, h]
  · rcases h : scripted c with _ | e <;>
      simp [Invoke, index0, assertStrMap, sliceFrom1, bind, Except.bind, hdec, recorder, h]
  · rcases h : scripted c with _ | e <;>
      simp [Invoke, index0, assertStrMap, sliceFrom1, bind, Except.bind, hdec, recorder, h]
  · cases v with
    | strMap e => exact absurd rfl (hv e)
    | str s => simp [Invoke, index0, assertStrMap, bind, Except.bind]
    | int n => simp [Invoke, index0, assertStrMap, bind, Except.bind]
    | bool b => simp [Invoke, index0, assertStrMap, bind, Except.bind]
    | other t => simp [Invoke, index0, assertStrMap, bind, Except.bind]

/-- C15 at the environment `A=1` with the command `ls -l`, and at the string
`x` in the place of the environment, followed by a list that does not decode. -/
theorem Invoke_env_is_argument_zero_witness :
    getCmdAndArgs [Value.str "ls", Value.str "-l"] = .ok ("ls", ["-l"], none) ∧
      (∀ e, Value.str "x" ≠ Value.strMap e) ∧
      (Invoke recorder "Exec" [Value.strMap [("A", "1")], Value.str "ls", Value.str "-l"]
        []).world = [⟨"Exec", [("A", "1")], "ls", ["-l"]⟩] ∧
      (Invoke recorder "Exec" [Value.str "x", Value.int 1, Value.int 2] []).out =
        .error Panic.typeAssertion :=
  have h := Invoke_env_is_argument_zero recorder [] [] [("A", "1")]
    [Value.str "ls", Value.str "-l"] "ls" ["-l"] (Value.str "x") [Value.int 1, Value.int 2]
    rfl (by intro e he; cases he)
  ⟨rfl, (by intro e he; cases he), h.2.1.2.2.2, h.2.2.2.2.2.1⟩

/-- C16: `Output` decodes the elements after element 0 and never looks at
element 0: replacing element 0 changes neither the value returned nor the world;
the primitive runs with element 1 as the command and the elements after it as
the arguments; on a one-element list `Invoke` returns the decode error
`not enough arguments`. -/
theorem Invoke_Output_skips_argument_zero {E W : Type} (m : Module E W) (w : W)
    (calls : List Call) (v v2 : Value) (rest : List Value) (x : String) (xs : List String) :
    ((Invoke m "Output" (v :: rest) w).out = (Invoke m "Output" (v2 :: rest) w).out ∧
      (Invoke m "Output" (v :: rest) w).world = (Invoke m "Output" (v2 :: rest) w).world) ∧
    ((Invoke m "Output" (v :: Value.str x :: xs.map Value.str) w).world = (m.Output x xs w).2 ∧
      (Invoke recorder "Output" (v :: Value.str x :: xs.map Value.str) calls).world =
        calls ++ [⟨"Output", [], x, xs⟩] ∧
      (∀ text, (m.Output x xs w).1 = (text, none) →
        (Invoke m "Output" (v :: Value.str x :: xs.map Value.str) w).out =
          .ok (Ret.envelope [("output", Value.str text),
            ("code", Value.int (m.ExitStatus none))])) ∧
      (∀ text err, (m.Output x xs w).1 = (text, some err) →
        (Invoke m "Output" (v :: Value.str x :: xs.map Value.str) w).out =
          .ok (Ret.envelope [("error", Value.str (m.Error err)),
            ("code", Value.int (m.ExitStatus (some err)))]))) ∧
    ((Invoke m "Output" [v] w).out = .ok (Ret.rawErr (errorsNew "not enough arguments")) ∧
      (errorsNew "not enough arguments").Error = "not enough arguments" ∧
      (Invoke m "Output" [v] w).world = w) := by
  have hdec := decode_strings x xs
  refine ⟨?_, ⟨?_, ?_, ?_, ?_⟩, ?_⟩
  · rcases hd : getCmdAndArgs rest with p | ⟨c, a, _ | err⟩
    · simp [Invoke, sliceFrom1, bind, Except.bind, hd]
    · rcases h : m.Output c a w with ⟨⟨text, _ | e⟩, w1⟩ <;>
        simp [Invoke, sliceFrom1, bind, Except.bind, hd, h]
    · simp [Invoke, sliceFrom1, bind, Except.bind, hd]
  · rcases h : m.Output x xs w with ⟨⟨text, _ | e⟩, w1⟩ <;>
      simp [Invoke, sliceFrom1, bind, Except.bind, hdec, h]
  · rcases h : scripted x with _ | e <;>
      simp [Invoke, sliceFrom1, bind, Except.bind, hdec, recorder, h]
  · rcases h : m.Output x xs w with ⟨⟨text, _ | e⟩, w1⟩ <;>
      simp [Invoke, sliceFrom1, bind, Except.bind, hdec, h]
  · rcases h : m.Output x xs w with ⟨⟨text, _ | e⟩, w1⟩ <;>
      simp [Invoke, sliceFrom1, bind, Except.bind, hdec, h]
  · simp [Invoke, sliceFrom1, bind, Except.bind, getCmdAndArgs, ErrorString.Error, errorsNew]

/-- On a list holding a non-string the loop of `getCmdAndArgs` panics. -/
theorem loop_panics (cmd : String) (rest : List Value) (h : ¬ AllStr rest) :
    ∀ (i : Nat) (acc : List String),
      getCmdAndArgs.loop cmd true i rest acc = .error Panic.typeAssertion := by
  induction rest with
  | nil => exact absurd (fun v hv => absurd hv (List.not_mem_nil v)) h
  | cons v rest ih =>
    intro i acc
    by_cases hv : ∃ s, v = Value.str s
    · obtain ⟨s, rfl⟩ := hv
      have hrest : ¬ AllStr rest := by
        intro hall
        apply h
        intro u hu
        rcases List.mem_cons.mp hu with rfl | hu
        · exact ⟨s, rfl⟩
        · exact hall u hu
      simp [getCmdAndArgs.loop, assertString, ih hrest]
    · cases v with
      | str s => exact absurd ⟨s, rfl⟩ hv
      | strMap m => simp [getCmdAndArgs.loop, assertString]
      | int n => simp [getCmdAndArgs.loop, assertString]
      | bool b => simp [getCmdAndArgs.loop, assertString]
      | other t => simp [getCmdAndArgs.loop, assertString]

/-- A non-string after a string command makes `getCmdAndArgs` panic. -/
theorem decode_panics (cmd : String) (rest : List Value) (h : ¬ AllStr rest) :
    getCmdAndArgs (Value.str cmd :: rest) = .error Panic.typeAssertion := by
  cases rest with
  | nil => exact absurd (fun v hv => absurd hv (List.not_mem_nil v)) h
  | cons v rest => simp [getCmdAndArgs, assertStringOk, loop_panics cmd (v :: rest) h 0 []]

/-- C17: the error `argument ... was not a string` is never returned: whenever
`getCmdAndArgs` returns an error, its message is `not enough arguments` or
`cmd argument was not a string`; and when a string command is followed by a list
holding a non-string, `getCmdAndArgs` panics on the type assertion instead of
returning. -/
theorem getCmdAndArgs_argument_error_unreachable (arr : List Value) (c : String)
    (a : List String) (err : ErrorString) (cmd : String) (rest : List Value) :
    (getCmdAndArgs arr = .ok (c, a, some err) →
      err.Error = "not enough arguments" ∨ err.Error = "cmd argument was not a string") ∧
    (¬ AllStr rest → getCmdAndArgs (Value.str cmd :: rest) = .error Panic.typeAssertion) := by
  refine ⟨?_, decode_panics cmd rest⟩
  intro hret
  cases arr with
  | nil =>
    left
    simp only [getCmdAndArgs, Except.ok.injEq, Prod.mk.injEq, Option.some.injEq] at hret
    rw [← hret.2.2]
    rfl
  | cons v tl =>
    right
    by_cases hv : ∃ s, v = Value.str s
    · obtain ⟨s, rfl⟩ := hv
      by_cases hall : AllStr tl
      · obtain ⟨xs, rfl⟩ := AllStr.exists_map hall
        rw [decode_strings s xs] at hret
        simp at hret
      · rw [decode_panics s tl hall] at hret
        cases hret
    · rw [decode_not_string v tl (fun s hs => hv ⟨s, hs⟩)] at hret
      simp only [Except.ok.injEq, Prod.mk.injEq, Option.some.injEq] at hret
      rw [← hret.2.2]
      rfl

/-- C17 at the lists `[7]`, whose decode error is about the command, and
`["x", 1, "y"]`, on which the decoder panics. -/
theorem getCmdAndArgs_argument_error_unreachable_witness :
    getCmdAndArgs [Value.int 7] =
        .ok ("", [], some (errorsNew "cmd argument was not a string")) ∧
      ((errorsNew "cmd argument was not a string").Error = "not enough arguments" ∨
        (errorsNew "cmd argument was not a string").Error = "cmd argument was not a string") ∧
      ¬ AllStr [Value.int 1, Value.str "y"] ∧
      getCmdAndArgs [Value.str "x", Value.int 1, Value.str "y"] = .error Panic.typeAssertion :=
  have hne : ¬ AllStr [Value.int 1, Value.str "y"] := by
    intro hall
    obtain ⟨s, hs⟩ := hall (Value.int 1) (List.mem_cons_self _ _)
    cases hs
  have h := getCmdAndArgs_argument_error_unreachable [Value.int 7] "" []
    (errorsNew "cmd argument was not a string") "x" [Value.int 1, Value.str "y"]
  ⟨rfl, h.1 rfl, hne, h.2 hne⟩

end Sh
